import Mathlib

/-!
Shallow embedding of the `udp-latency` benchmark from demikernel/apps
(`src/bin/udp-latency.rs`), the most complex program of the repository and
the one all frozen claims are about.  The asynchronous I/O substrate
(demikernel `LibOS`) is modelled as an oracle: the reactor submits
operations (each submission obtains a fresh token from a counter) and an
event stream supplies, for each `wait_any2` return, the position of the
completed entry in the pending vector together with its `OperationResult`.
`rand::thread_rng().gen_range(0, n)` calls are modelled by an oracle stream
`draws` (each raw draw is reduced `% n`, which is the identity on the
in-range values `gen_range` actually returns), and `Instant::now()` calls
by an oracle stream `clock` consumed one reading at a time.
-/

namespace UdpLatency

/-- Completion results delivered by the substrate (demikernel
`OperationResult`), exactly the variants matched in `udp-latency.rs` and
`udp-echo2.rs`. -/
inductive OperationResult where
  | Connect : OperationResult
  | Accept : Nat → OperationResult
  | Push : OperationResult
  | Pop : Option (Nat × Nat) → List Nat → OperationResult
  | Failed : Nat → OperationResult
deriving DecidableEq, Repr

/-- `ProgramArguments` of `udp-latency.rs`: local and remote socket
addresses (IPv4 address and port), buffer size, number of flows (u16) and
the packets argument (u64). -/
structure ProgramArguments where
  localIp : Nat
  localPort : Nat
  remoteIp : Nat
  remotePort : Nat
  bufsize : Nat
  flows : Nat
  packets : Nat
deriving DecidableEq, Repr

/-- `ProgramArguments::get_first_port`: returns `self.local.port()`. -/
def get_first_port (args : ProgramArguments) : Nat :=
  args.localPort

/-- `ProgramArguments::get_packets`: returns `self.packets * 10000` in u64
arithmetic (wrapping modulo `2 ^ 64`). -/
def get_packets (args : ProgramArguments) : Nat :=
  args.packets * 10000 % 2 ^ 64

/-- `ProgramArguments::set_packets`: accepts a parsed u64 `packets` when it
is positive, otherwise bails with an error. -/
def set_packets (args : ProgramArguments) (packets : Nat) :
    Except String ProgramArguments :=
  if 0 < packets then .ok { args with packets := packets }
  else .error "invalid number of packets"

/-- `ProgramArguments::set_flows`: accepts a parsed u16 `flows` when it is
positive, otherwise bails with an error. -/
def set_flows (args : ProgramArguments) (flows : Nat) :
    Except String ProgramArguments :=
  if 0 < flows then .ok { args with flows := flows }
  else .error "invalid number of flows"

/-- The local socket addresses bound by `Application::new`: for each
`i in 0..flows` it binds `SocketAddrV4::new(*args.get_local().ip(), i)`,
i.e. the local IP paired with the loop index `i` as the port. -/
def boundLocalAddrs (args : ProgramArguments) : List (Nat × Nat) :=
  (List.range args.flows).map (fun i => (args.localIp, i))

/-- The local ports bound by `Application::new`, in binding order. -/
def boundLocalPorts (args : ProgramArguments) : List Nat :=
  (boundLocalAddrs args).map Prod.snd

/-- The run configuration extracted by `Application::new` from the parsed
arguments: `self.sockets.len() = flows`, `self.packets = get_packets()`,
`self.bufsize = bufsize`. -/
structure Config where
  nflows : Nat
  packets : Nat
  bufsize : Nat
deriving DecidableEq, Repr

/-- `Application::new` stores `args.get_remote()`, `args.get_bufsize()`,
`args.get_packets()` and one socket per flow. -/
def mkConfig (args : ProgramArguments) : Config :=
  { nflows := args.flows
    packets := get_packets args
    bufsize := args.bufsize }

/-- Oracle environment for one run: the successive outputs of
`rand::thread_rng().gen_range(0, nflows)` and the successive readings of
`Instant::now()` (nanoseconds on a monotone clock). -/
structure Env where
  draws : Nat → Nat
  clock : Nat → Nat

/-- `Vec::swap_remove(i)`: removes the element at position `i`, replacing
it by the last element, then drops the last slot. -/
def swapRemove (l : List Nat) (i : Nat) : List Nat :=
  (l.set i (l.getD (l.length - 1) 0)).dropLast

/-- Mutable state of `Application::run`: the pending token vector
`qtokens`, the collected `latencies`, the packet counter `npackets`, the
last send-submission timestamp `last_push` and the current flow index
`idx`; plus ghost bookkeeping: `rngPos` counts `gen_range` calls,
`clockPos` counts `Instant::now()` calls, `nextTok` counts submissions
(each submission receives a fresh token), and `subs` records the flow
index used by each submission, in submission order. -/
structure RunState where
  qtokens : List Nat
  latencies : List Nat
  npackets : Nat
  last_push : Nat
  idx : Nat
  rngPos : Nat
  clockPos : Nat
  nextTok : Nat
  subs : List Nat
deriving DecidableEq, Repr, Inhabited

/-- The state right before the `loop` in `Application::run` (lines
281-295): the first packet is pushed on a randomly drawn flow, `last_push`
is re-read after the push, and the returned token is the only pending
entry. -/
def initState (cfg : Config) (env : Env) : RunState :=
  { qtokens := [0]
    latencies := []
    npackets := 0
    last_push := env.clock 1
    idx := env.draws 0 % cfg.nflows
    rngPos := 1
    clockPos := 2
    nextTok := 1
    subs := [env.draws 0 % cfg.nflows] }

/-- Result of dispatching one completion: either the loop continues with
an updated state, or the process panics with a diagnostic. -/
inductive StepOut where
  | next : RunState → StepOut
  | fatal : String → StepOut
deriving DecidableEq, Repr

/-- One iteration of the dispatch part of `Application::run`'s loop (lines
323-355): `wait_any2` returned position `i` with completion `result`; the
entry is removed by `swap_remove`, then the completion is dispatched.
`Push` pops on the current flow; `Pop` appends one latency sample
(`Instant::now() - last_push`), draws a fresh random flow, pushes on it,
re-reads `last_push` and increments `npackets`; `Failed` and every other
variant panic.  A `wait_any2` return with an out-of-range position cannot
occur (substrate contract) and is mapped to a panic as well. -/
def step (cfg : Config) (env : Env) (s : RunState) (i : Nat)
    (result : OperationResult) : StepOut :=
  if i < s.qtokens.length then
    let q := swapRemove s.qtokens i
    match result with
    | .Push =>
        .next { s with
          qtokens := q ++ [s.nextTok]
          nextTok := s.nextTok + 1
          subs := s.subs ++ [s.idx] }
    | .Pop _ _ =>
        let start := env.clock s.clockPos
        let roundtrip := start - s.last_push
        let idx' := env.draws s.rngPos % cfg.nflows
        .next { s with
          latencies := s.latencies ++ [roundtrip]
          idx := idx'
          rngPos := s.rngPos + 1
          last_push := env.clock (s.clockPos + 1)
          clockPos := s.clockPos + 2
          qtokens := q ++ [s.nextTok]
          nextTok := s.nextTok + 1
          subs := s.subs ++ [idx']
          npackets := s.npackets + 1 }
    | .Failed _ => .fatal "operation failed"
    | .Accept _ => .fatal "unexpected result"
    | .Connect => .fatal "unexpected result"
  else
    .fatal "wait index out of range"

/-- Modelled from the spec: the Statistics Engine's histogram is the
external `histogram` crate, whose source is not part of this repository.
Per the spec glossary ("Percentile (pN): the latency value below which N%
of samples fall") the histogram is modelled as the multiset of samples and
a percentile query as nearest-rank over the sorted samples.  `q` is the
percentile in tenths of a percent (p50 is `500`, p99.9 is `999`). -/
def percentile (samples : List Nat) (q : Nat) : Nat :=
  (List.insertionSort (· ≤ ·) samples).getD
    ((q * samples.length + 999) / 1000 - 1) 0

/-- Modelled from the spec: `histogram.minimum()`, the smallest inserted
sample. -/
def histMinimum (samples : List Nat) : Nat :=
  (List.insertionSort (· ≤ ·) samples).getD 0 0

/-- Modelled from the spec: `histogram.maximum()`, the largest inserted
sample. -/
def histMaximum (samples : List Nat) : Nat :=
  (List.insertionSort (· ≤ ·) samples).getD (samples.length - 1) 0

/-- The report produced by the statistics block (lines 299-318): every raw
latency written to `latency.txt`, one decimal value per line, plus the
printed percentiles and extremes.  (The block also prints mean and
standard deviation; no frozen claim concerns them.) -/
structure StatsReport where
  fileLines : List Nat
  p50 : Nat
  p90 : Nat
  p99 : Nat
  p999 : Nat
  minimum : Nat
  maximum : Nat
deriving DecidableEq, Repr, Inhabited

/-- The statistics block of `Application::run`: build the histogram from
all latencies, write each latency as one line of `latency.txt`, report
percentiles and extremes. -/
def runStats (latencies : List Nat) : StatsReport :=
  { fileLines := latencies
    p50 := percentile latencies 500
    p90 := percentile latencies 900
    p99 := percentile latencies 990
    p999 := percentile latencies 999
    minimum := histMinimum latencies
    maximum := histMaximum latencies }

/-- Outcome of running the loop against a finite event stream: `finished`
when the target was reached (the statistics block ran and the loop broke),
`fatal` when some dispatch panicked, `pending` when the stream was
exhausted while the loop was still waiting for completions. -/
inductive RunOutcome where
  | finished : StatsReport → RunState → RunOutcome
  | fatal : String → RunOutcome
  | pending : RunState → RunOutcome
deriving DecidableEq, Repr

/-- The `loop` of `Application::run` (lines 297-356): at the top of each
iteration, if `npackets == self.packets` the statistics block runs and the
loop breaks; otherwise the reactor waits for the next completion event and
dispatches it. -/
def runLoop (cfg : Config) (env : Env) :
    List (Nat × OperationResult) → RunState → RunOutcome
  | [], s =>
      if s.npackets = cfg.packets then .finished (runStats s.latencies) s
      else .pending s
  | (i, r) :: rest, s =>
      if s.npackets = cfg.packets then .finished (runStats s.latencies) s
      else
        match step cfg env s i r with
        | .next s' => runLoop cfg env rest s'
        | .fatal msg => .fatal msg

/-- Whether the run reached the statistics block and broke out normally. -/
def isFinished : RunOutcome → Bool
  | .finished _ _ => true
  | _ => false

/-- Number of times the run invoked the statistics block. -/
def statsCalls : RunOutcome → Nat
  | .finished _ _ => 1
  | _ => 0

/-- The report of a finished run. -/
def reportOf : RunOutcome → StatsReport
  | .finished rep _ => rep
  | _ => default

/-- The final state of a run that did not panic. -/
def finalOf : RunOutcome → RunState
  | .finished _ s => s
  | .pending s => s
  | .fatal _ => default

/-- Whether a dispatch continued the loop. -/
def isNext : StepOut → Bool
  | .next _ => true
  | .fatal _ => false

/-- Whether a dispatch panicked. -/
def isFatal : StepOut → Bool
  | .next _ => false
  | .fatal _ => true

/-- The post-state of a dispatch that continued the loop. -/
def stepNext : StepOut → RunState
  | .next s => s
  | .fatal _ => default

/-- States reachable by the reactor from a given state, by dispatching any
sequence of completion events. -/
inductive Reach (cfg : Config) (env : Env) : RunState → RunState → Prop
  | refl (s : RunState) : Reach cfg env s s
  | tail (s s' s'' : RunState) (i : Nat) (r : OperationResult) :
      step cfg env s i r = .next s' → Reach cfg env s' s'' →
      Reach cfg env s s''

end UdpLatency

namespace UdpLatency

/-- Concrete run configuration used for witnesses: one flow, one packet. -/
def wConfig : Config := { nflows := 1, packets := 1, bufsize := 4 }

/-- Concrete oracle environment used for witnesses. -/
def wEnv : Env := { draws := fun _ => 0, clock := fun k => k }

/-- Concrete completion-event stream driving one full round trip. -/
def wEvents : List (Nat × OperationResult) := [(0, .Push), (0, .Pop none [])]

/-- The default program arguments of `udp-latency.rs`
(`127.0.0.1:12345` local, `127.0.0.1:23456` remote, bufsize 1024,
one flow, one packets unit). -/
def defaultArgs : ProgramArguments :=
  { localIp := 2130706433, localPort := 12345, remoteIp := 2130706433,
    remotePort := 23456, bufsize := 1024, flows := 1, packets := 1 }

/-- Arguments whose packets value makes the u64 product `packets * 10000`
wrap: `packets = 2 ^ 61`. -/
def bigArgs : ProgramArguments :=
  { defaultArgs with packets := 2305843009213693952 }

/-- Environment whose second random draw differs from its first. -/
def cEnv : Env := { draws := fun k => if k = 0 then 1 else 0, clock := fun k => k }

/-- Two-flow configuration for the flow-selection counterexample. -/
def cConfig : Config := { nflows := 2, packets := 5, bufsize := 4 }

lemma swapRemove_length (l : List Nat) (i : Nat) :
    (swapRemove l i).length = l.length - 1 := by
  simp [swapRemove]

lemma step_next_props {cfg : Config} {env : Env} {s : RunState} {i : Nat}
    {r : OperationResult} {s' : RunState}
    (hstep : step cfg env s i r = .next s') :
    s'.qtokens.length = s.qtokens.length ∧
    s'.latencies.length + s.npackets = s.latencies.length + s'.npackets := by
  by_cases hi : i < s.qtokens.length
  · cases r with
    | Connect => simp [step, if_pos hi] at hstep
    | Accept qd => simp [step, if_pos hi] at hstep
    | Failed e => simp [step, if_pos hi] at hstep
    | Push =>
        simp only [step, if_pos hi, StepOut.next.injEq] at hstep
        subst hstep
        refine ⟨?_, ?_⟩
        · simp [swapRemove_length]
          omega
        · simp
    | Pop a b =>
        simp only [step, if_pos hi, StepOut.next.injEq] at hstep
        subst hstep
        refine ⟨?_, ?_⟩
        · simp [swapRemove_length]
          omega
        · simp
          omega
  · simp [step, if_neg hi] at hstep

lemma reach_qtokens_length {cfg : Config} {env : Env} {s s' : RunState}
    (h : Reach cfg env s s') :
    s'.qtokens.length = s.qtokens.length := by
  induction h with
  | refl s => rfl
  | tail s t t' i r hstep _ ih => rw [ih, (step_next_props hstep).1]

lemma statsCalls_of_finished {o : RunOutcome} (h : isFinished o = true) :
    statsCalls o = 1 := by
  cases o <;> simp [isFinished, statsCalls] at *

lemma runLoop_finished_props (cfg : Config) (env : Env)
    (events : List (Nat × OperationResult)) :
    ∀ s : RunState, s.latencies.length = s.npackets → s.qtokens.length = 1 →
      isFinished (runLoop cfg env events s) = true →
      reportOf (runLoop cfg env events s)
          = runStats (finalOf (runLoop cfg env events s)).latencies ∧
      (finalOf (runLoop cfg env events s)).latencies.length = cfg.packets ∧
      (finalOf (runLoop cfg env events s)).npackets = cfg.packets ∧
      (finalOf (runLoop cfg env events s)).qtokens.length = 1 := by
  induction events with
  | nil =>
      intro s hlat hq _
      by_cases hnp : s.npackets = cfg.packets
      · have heq : runLoop cfg env [] s = .finished (runStats s.latencies) s := by
          simp [runLoop, if_pos hnp]
        rw [heq]
        simp only [reportOf, finalOf]
        exact ⟨trivial, by rw [hlat, hnp], hnp, hq⟩
      · have heq : runLoop cfg env [] s = .pending s := by
          simp [runLoop, if_neg hnp]
        rename_i hfin
        rw [heq] at hfin
        simp [isFinished] at hfin
  | cons e rest ih =>
      obtain ⟨i, r⟩ := e
      intro s hlat hq hfin
      by_cases hnp : s.npackets = cfg.packets
      · have heq : runLoop cfg env ((i, r) :: rest) s
            = .finished (runStats s.latencies) s := by
          simp [runLoop, if_pos hnp]
        rw [heq]
        simp only [reportOf, finalOf]
        exact ⟨trivial, by rw [hlat, hnp], hnp, hq⟩
      · cases hstep : step cfg env s i r with
        | next s' =>
            have heq : runLoop cfg env ((i, r) :: rest) s
                = runLoop cfg env rest s' := by
              simp [runLoop, if_neg hnp, hstep]
            rw [heq] at hfin ⊢
            obtain ⟨h1, h2⟩ := step_next_props hstep
            exact ih s' (by omega) (by omega) hfin
        | fatal msg =>
            have heq : runLoop cfg env ((i, r) :: rest) s = .fatal msg := by
              simp [runLoop, if_neg hnp, hstep]
            rw [heq] at hfin
            simp [isFinished] at hfin

end UdpLatency

namespace UdpLatency

lemma percentile_mono (l : List Nat) {q q' : Nat} (hqq : q ≤ q')
    (hq' : q' ≤ 1000) : percentile l q ≤ percentile l q' := by
  rcases eq_or_ne l [] with rfl | hne
  · simp [percentile]
  · have hn1 : 0 < l.length := List.length_pos.mpr hne
    have hlen : (List.insertionSort (· ≤ ·) l).length = l.length :=
      (List.perm_insertionSort _ l).length_eq
    have hsort : (List.insertionSort (· ≤ ·) l).Sorted (· ≤ ·) :=
      List.sorted_insertionSort _ l
    have h0 : q' * l.length ≤ 1000 * l.length :=
      Nat.mul_le_mul_right l.length hq'
    have h1 : (q' * l.length + 999) / 1000 < l.length + 1 := by
      refine (Nat.div_lt_iff_lt_mul (by norm_num)).mpr ?_
      omega
    have hb : (q' * l.length + 999) / 1000 - 1 < l.length := by omega
    have hmono : q * l.length + 999 ≤ q' * l.length + 999 := by
      have := Nat.mul_le_mul_right l.length hqq
      omega
    have hab : (q * l.length + 999) / 1000 - 1
        ≤ (q' * l.length + 999) / 1000 - 1 :=
      Nat.sub_le_sub_right (Nat.div_le_div_right hmono) 1
    have ha : (q * l.length + 999) / 1000 - 1 < l.length :=
      lt_of_le_of_lt hab hb
    unfold percentile
    rw [List.getD_eq_getElem _ _ (by rw [hlen]; exact ha),
        List.getD_eq_getElem _ _ (by rw [hlen]; exact hb)]
    have hget := List.Sorted.rel_get_of_le hsort
      (a := ⟨(q * l.length + 999) / 1000 - 1, by rw [hlen]; exact ha⟩)
      (b := ⟨(q' * l.length + 999) / 1000 - 1, by rw [hlen]; exact hb⟩)
      (by exact Fin.mk_le_mk.mpr hab)
    simpa [List.get_eq_getElem] using hget

lemma histMinimum_eq_percentile_zero (l : List Nat) :
    histMinimum l = percentile l 0 := by
  unfold histMinimum percentile
  norm_num

lemma histMaximum_eq_percentile_thousand (l : List Nat) :
    histMaximum l = percentile l 1000 := by
  unfold histMaximum percentile
  have h : (1000 * l.length + 999) / 1000 = l.length := by
    rw [Nat.mul_add_div (by norm_num)]
    norm_num
  rw [h]

end UdpLatency

namespace UdpLatency

/-- C1: for every configured target sample count, a run of the latency
harness that terminates normally invokes the statistics/report stage
exactly once, and the number of raw latency samples it persists to the
output file (one decimal value per line) equals the target count exactly. -/
theorem stats_invoked_once_and_persists_target_count
    (cfg : Config) (env : Env) (events : List (Nat × OperationResult))
    (hfin : isFinished (runLoop cfg env events (initState cfg env)) = true) :
    statsCalls (runLoop cfg env events (initState cfg env)) = 1 ∧
    (reportOf (runLoop cfg env events (initState cfg env))).fileLines.length
      = cfg.packets := by
  obtain ⟨hrep, hlen, -, -⟩ :=
    runLoop_finished_props cfg env events (initState cfg env) rfl rfl hfin
  refine ⟨statsCalls_of_finished hfin, ?_⟩
  rw [hrep]
  simpa [runStats] using hlen

/-- Witness for C1 at a concrete finishing run. -/
theorem stats_invoked_once_and_persists_target_count_witness :
    statsCalls (runLoop wConfig wEnv wEvents (initState wConfig wEnv)) = 1 ∧
    (reportOf (runLoop wConfig wEnv wEvents (initState wConfig wEnv))).fileLines.length
      = wConfig.packets :=
  stats_invoked_once_and_persists_target_count wConfig wEnv wEvents (by decide)

/-- C2, evaluated at the failing input (default local address
`127.0.0.1:12345`, one flow): `Application::new` binds one endpoint per
flow, but the bound port is the loop index `i` (starting at 0), not the
configured base local port 12345 returned by `get_first_port` (which is
never called). -/
theorem first_bound_port_is_loop_index_not_base :
    (boundLocalAddrs defaultArgs).length = defaultArgs.flows ∧
    boundLocalPorts defaultArgs = [0] ∧
    get_first_port defaultArgs = 12345 ∧
    (boundLocalPorts defaultArgs).getD 0 0 ≠ get_first_port defaultArgs := by
  decide

/-- C3: on every receive (`Pop`) completion, the handler appends exactly
one latency sample whose value is the completion timestamp minus the last
recorded send-submission timestamp, then submits exactly one new send and
records its submission timestamp. -/
theorem pop_completion_appends_one_sample
    (cfg : Config) (env : Env) (s : RunState) (i : Nat)
    (addr : Option (Nat × Nat)) (buf : List Nat)
    (h : i < s.qtokens.length) :
    isNext (step cfg env s i (.Pop addr buf)) = true ∧
    (stepNext (step cfg env s i (.Pop addr buf))).latencies
      = s.latencies ++ [env.clock s.clockPos - s.last_push] ∧
    (stepNext (step cfg env s i (.Pop addr buf))).nextTok = s.nextTok + 1 ∧
    (stepNext (step cfg env s i (.Pop addr buf))).last_push
      = env.clock (s.clockPos + 1) := by
  simp [step, if_pos h, isNext, stepNext]

/-- Witness for C3 at a concrete state. -/
theorem pop_completion_appends_one_sample_witness :
    isNext (step wConfig wEnv (initState wConfig wEnv) 0 (.Pop none [])) = true ∧
    (stepNext (step wConfig wEnv (initState wConfig wEnv) 0 (.Pop none []))).latencies
      = (initState wConfig wEnv).latencies
        ++ [wEnv.clock (initState wConfig wEnv).clockPos
              - (initState wConfig wEnv).last_push] ∧
    (stepNext (step wConfig wEnv (initState wConfig wEnv) 0 (.Pop none []))).nextTok
      = (initState wConfig wEnv).nextTok + 1 ∧
    (stepNext (step wConfig wEnv (initState wConfig wEnv) 0 (.Pop none []))).last_push
      = wEnv.clock ((initState wConfig wEnv).clockPos + 1) :=
  pop_completion_appends_one_sample wConfig wEnv (initState wConfig wEnv) 0
    none [] (by decide)

/-- C5: at every reactor state reachable from the initial state, the
pending token set holds at most as many entries as there are flows (in
fact exactly one entry). -/
theorem pending_set_le_flows (cfg : Config) (env : Env) (s' : RunState)
    (hn : 1 ≤ cfg.nflows)
    (hr : Reach cfg env (initState cfg env) s') :
    s'.qtokens.length ≤ cfg.nflows := by
  have h := reach_qtokens_length hr
  simp [initState] at h
  omega

/-- Witness for C5 at the initial state of a one-flow run. -/
theorem pending_set_le_flows_witness :
    (initState wConfig wEnv).qtokens.length ≤ wConfig.nflows :=
  pending_set_le_flows wConfig wEnv (initState wConfig wEnv) (by decide)
    (Reach.refl _)

/-- C7: a `Failed` completion, and every completion tag the latency policy
does not handle (`Accept`, `Connect`), terminates the process with a
diagnostic; no such path continues the loop. -/
theorem failed_and_unhandled_completions_fatal
    (cfg : Config) (env : Env) (s : RunState) (i e qd : Nat) :
    isFatal (step cfg env s i (.Failed e)) = true ∧
    isFatal (step cfg env s i (.Accept qd)) = true ∧
    isFatal (step cfg env s i .Connect) = true := by
  by_cases h : i < s.qtokens.length <;> simp [step, h, isFatal]

/-- C10: a run of the latency harness that terminates normally exits the
loop with exactly one operation still outstanding (the send submitted by
the handler of the final sample), never with an empty pending set, and
with the packet counter equal to the target. -/
theorem loop_exits_with_one_outstanding
    (cfg : Config) (env : Env) (events : List (Nat × OperationResult))
    (hfin : isFinished (runLoop cfg env events (initState cfg env)) = true) :
    (finalOf (runLoop cfg env events (initState cfg env))).qtokens.length = 1 ∧
    (finalOf (runLoop cfg env events (initState cfg env))).qtokens ≠ [] ∧
    (finalOf (runLoop cfg env events (initState cfg env))).npackets
      = cfg.packets := by
  obtain ⟨-, -, hnp, hq⟩ :=
    runLoop_finished_props cfg env events (initState cfg env) rfl rfl hfin
  refine ⟨hq, ?_, hnp⟩
  intro hnil
  rw [hnil] at hq
  simp at hq

/-- Witness for C10 at a concrete finishing run. -/
theorem loop_exits_with_one_outstanding_witness :
    (finalOf (runLoop wConfig wEnv wEvents (initState wConfig wEnv))).qtokens.length = 1 ∧
    (finalOf (runLoop wConfig wEnv wEvents (initState wConfig wEnv))).qtokens ≠ [] ∧
    (finalOf (runLoop wConfig wEnv wEvents (initState wConfig wEnv))).npackets
      = wConfig.packets :=
  loop_exits_with_one_outstanding wConfig wEnv wEvents (by decide)

end UdpLatency

namespace UdpLatency

/-- C4: every collected latency sample of a normally terminating run is a
non-negative duration, the reported summary satisfies
minimum ≤ p50 ≤ p90 ≤ p99 ≤ p99.9 ≤ maximum, and percentile queries over
the produced histogram are monotone non-decreasing in the percentile
parameter (given in tenths of a percent, up to 1000 = 100%). -/
theorem samples_nonneg_and_report_percentiles_monotone
    (cfg : Config) (env : Env) (events : List (Nat × OperationResult))
    (j q q' : Nat)
    (hfin : isFinished (runLoop cfg env events (initState cfg env)) = true)
    (hqq : q ≤ q') (hq' : q' ≤ 1000) :
    0 ≤ ((finalOf (runLoop cfg env events (initState cfg env))).latencies).getD j 0 ∧
    (reportOf (runLoop cfg env events (initState cfg env))).minimum
      ≤ (reportOf (runLoop cfg env events (initState cfg env))).p50 ∧
    (reportOf (runLoop cfg env events (initState cfg env))).p50
      ≤ (reportOf (runLoop cfg env events (initState cfg env))).p90 ∧
    (reportOf (runLoop cfg env events (initState cfg env))).p90
      ≤ (reportOf (runLoop cfg env events (initState cfg env))).p99 ∧
    (reportOf (runLoop cfg env events (initState cfg env))).p99
      ≤ (reportOf (runLoop cfg env events (initState cfg env))).p999 ∧
    (reportOf (runLoop cfg env events (initState cfg env))).p999
      ≤ (reportOf (runLoop cfg env events (initState cfg env))).maximum ∧
    percentile (finalOf (runLoop cfg env events (initState cfg env))).latencies q
      ≤ percentile (finalOf (runLoop cfg env events (initState cfg env))).latencies q' := by
  obtain ⟨hrep, -, -, -⟩ :=
    runLoop_finished_props cfg env events (initState cfg env) rfl rfl hfin
  rw [hrep]
  simp only [runStats]
  refine ⟨Nat.zero_le _, ?_, ?_, ?_, ?_, ?_, percentile_mono _ hqq hq'⟩
  · rw [histMinimum_eq_percentile_zero]
    exact percentile_mono _ (by norm_num) (by norm_num)
  · exact percentile_mono _ (by norm_num) (by norm_num)
  · exact percentile_mono _ (by norm_num) (by norm_num)
  · exact percentile_mono _ (by norm_num) (by norm_num)
  · rw [histMaximum_eq_percentile_thousand]
    exact percentile_mono _ (by norm_num) (by norm_num)

/-- Witness for C4 at a concrete finishing run, sample index 0 and
percentile parameters 500 ≤ 900. -/
theorem samples_nonneg_and_report_percentiles_monotone_witness :
    0 ≤ ((finalOf (runLoop wConfig wEnv wEvents (initState wConfig wEnv))).latencies).getD 0 0 ∧
    (reportOf (runLoop wConfig wEnv wEvents (initState wConfig wEnv))).minimum
      ≤ (reportOf (runLoop wConfig wEnv wEvents (initState wConfig wEnv))).p50 ∧
    (reportOf (runLoop wConfig wEnv wEvents (initState wConfig wEnv))).p50
      ≤ (reportOf (runLoop wConfig wEnv wEvents (initState wConfig wEnv))).p90 ∧
    (reportOf (runLoop wConfig wEnv wEvents (initState wConfig wEnv))).p90
      ≤ (reportOf (runLoop wConfig wEnv wEvents (initState wConfig wEnv))).p99 ∧
    (reportOf (runLoop wConfig wEnv wEvents (initState wConfig wEnv))).p99
      ≤ (reportOf (runLoop wConfig wEnv wEvents (initState wConfig wEnv))).p999 ∧
    (reportOf (runLoop wConfig wEnv wEvents (initState wConfig wEnv))).p999
      ≤ (reportOf (runLoop wConfig wEnv wEvents (initState wConfig wEnv))).maximum ∧
    percentile (finalOf (runLoop wConfig wEnv wEvents (initState wConfig wEnv))).latencies 500
      ≤ percentile (finalOf (runLoop wConfig wEnv wEvents (initState wConfig wEnv))).latencies 900 :=
  samples_nonneg_and_report_percentiles_monotone wConfig wEnv wEvents 0 500 900
    (by decide) (by norm_num) (by norm_num)

/-- C6 counterexample: in a two-flow run whose first random draw is flow 1
and whose second draw would be flow 0, the receive submission issued by
the `Push`-completion handler (the run's second submission) goes to flow 1
— the flow of the preceding draw — and not to a fresh draw over the pool,
which would give flow 0; so not every submission's flow comes from a
fresh, independent draw. -/
theorem receive_submission_reuses_previous_draw :
    (stepNext (step cConfig cEnv (initState cConfig cEnv) 0 .Push)).subs.length = 2 ∧
    (stepNext (step cConfig cEnv (initState cConfig cEnv) 0 .Push)).subs.getD 1 0 = 1 ∧
    cEnv.draws 1 % cConfig.nflows = 0 ∧
    (stepNext (step cConfig cEnv (initState cConfig cEnv) 0 .Push)).subs.getD 1 0
      ≠ cEnv.draws 1 % cConfig.nflows := by
  decide

/-- C6 amended: the flow of the initial send and of every send submitted
by a receive-completion handler is a fresh random draw over the whole flow
pool (the next RNG output, one draw consumed per send), while the receive
submitted by a send-completion handler reuses the current flow index
without drawing. -/
theorem send_submissions_use_fresh_uniform_draw
    (cfg : Config) (env : Env) (s : RunState) (i : Nat)
    (addr : Option (Nat × Nat)) (buf : List Nat)
    (h : i < s.qtokens.length) :
    (initState cfg env).subs = [env.draws 0 % cfg.nflows] ∧
    (initState cfg env).rngPos = 1 ∧
    (stepNext (step cfg env s i (.Pop addr buf))).subs
      = s.subs ++ [env.draws s.rngPos % cfg.nflows] ∧
    (stepNext (step cfg env s i (.Pop addr buf))).rngPos = s.rngPos + 1 ∧
    (stepNext (step cfg env s i (.Pop addr buf))).idx
      = env.draws s.rngPos % cfg.nflows ∧
    (stepNext (step cfg env s i .Push)).subs = s.subs ++ [s.idx] ∧
    (stepNext (step cfg env s i .Push)).rngPos = s.rngPos := by
  simp [step, if_pos h, stepNext, initState]

/-- Witness for the amended C6 at a concrete state. -/
theorem send_submissions_use_fresh_uniform_draw_witness :
    (initState cConfig cEnv).subs = [cEnv.draws 0 % cConfig.nflows] ∧
    (initState cConfig cEnv).rngPos = 1 ∧
    (stepNext (step cConfig cEnv (initState cConfig cEnv) 0 (.Pop none []))).subs
      = (initState cConfig cEnv).subs
        ++ [cEnv.draws (initState cConfig cEnv).rngPos % cConfig.nflows] ∧
    (stepNext (step cConfig cEnv (initState cConfig cEnv) 0 (.Pop none []))).rngPos
      = (initState cConfig cEnv).rngPos + 1 ∧
    (stepNext (step cConfig cEnv (initState cConfig cEnv) 0 (.Pop none []))).idx
      = cEnv.draws (initState cConfig cEnv).rngPos % cConfig.nflows ∧
    (stepNext (step cConfig cEnv (initState cConfig cEnv) 0 .Push)).subs
      = (initState cConfig cEnv).subs ++ [(initState cConfig cEnv).idx] ∧
    (stepNext (step cConfig cEnv (initState cConfig cEnv) 0 .Push)).rngPos
      = (initState cConfig cEnv).rngPos :=
  send_submissions_use_fresh_uniform_draw cConfig cEnv (initState cConfig cEnv)
    0 none [] (by decide)

/-- C8: removal of the completed entry at position `i` of the pending set
is swap-with-last: the result has the entry at position `i` replaced by
the former last entry, every other surviving entry unchanged, and its size
is exactly one less. -/
theorem swapRemove_is_swap_with_last (l : List Nat) (i j : Nat)
    (hi : i < l.length) (hj : j < l.length - 1) :
    (swapRemove l i).length = l.length - 1 ∧
    (swapRemove l i).getD j 0
      = if j = i then l.getD (l.length - 1) 0 else l.getD j 0 := by
  refine ⟨swapRemove_length l i, ?_⟩
  have hj' : j < (swapRemove l i).length := by
    rw [swapRemove_length]
    exact hj
  rw [List.getD_eq_getElem _ _ hj']
  unfold swapRemove
  rw [List.getElem_dropLast, List.getElem_set]
  by_cases hij : i = j
  · simp [hij]
  · rw [if_neg hij, if_neg (Ne.symm hij)]
    exact (List.getD_eq_getElem _ _ (by omega)).symm

/-- Witness for C8 at a concrete pending set. -/
theorem swapRemove_is_swap_with_last_witness :
    (swapRemove [10, 20, 30] 0).length = ([10, 20, 30] : List Nat).length - 1 ∧
    (swapRemove [10, 20, 30] 0).getD 0 0
      = if (0 : Nat) = 0
          then ([10, 20, 30] : List Nat).getD (([10, 20, 30] : List Nat).length - 1) 0
          else ([10, 20, 30] : List Nat).getD 0 0 :=
  swapRemove_is_swap_with_last [10, 20, 30] 0 0 (by decide) (by decide)

/-- C9 counterexample: at the packets argument p = 2^61 (a valid positive
u64), the u64 product `p * 10000` computed by `get_packets` wraps modulo
2^64, so the target count used by the run is not `p * 10000`. -/
theorem target_count_wraps_at_large_packets :
    1 ≤ bigArgs.packets ∧
    (mkConfig bigArgs).packets ≠ bigArgs.packets * 10000 := by
  decide

/-- C9 amended: for every parsed packets argument p ≥ 1 whose product with
10000 fits in a u64, the target sample count actually used by the run
equals p * 10000 (the value of `get_packets`) and differs from the raw
argument itself; for larger p the u64 product wraps modulo 2^64. -/
theorem target_count_is_packets_times_ten_thousand
    (args : ProgramArguments) (h1 : 1 ≤ args.packets)
    (h2 : args.packets * 10000 < 2 ^ 64) :
    (mkConfig args).packets = args.packets * 10000 ∧
    (mkConfig args).packets ≠ args.packets := by
  have h2' : args.packets * 10000 < 18446744073709551616 := by
    calc args.packets * 10000 < 2 ^ 64 := h2
    _ = 18446744073709551616 := by norm_num
  have h : (mkConfig args).packets = args.packets * 10000 := by
    simp [mkConfig, get_packets, Nat.mod_eq_of_lt h2']
  refine ⟨h, ?_⟩
  rw [h]
  omega

/-- Witness for the amended C9 at packets argument 7. -/
theorem target_count_is_packets_times_ten_thousand_witness :
    (mkConfig defaultArgs).packets = defaultArgs.packets * 10000 ∧
    (mkConfig defaultArgs).packets ≠ defaultArgs.packets :=
  target_count_is_packets_times_ten_thousand defaultArgs (by decide)
    (by norm_num [defaultArgs])

end UdpLatency
